import Mathlib

/-!
A shallow embedding of the library-management application
(Express/Sequelize, `src/`): users, books, and the `UserBooks`
loan-link join table, together with the four lending operations
(`borrowBook`, `returnBook`, `getBookWithScore`, `getUserById`)
and the create operations of the helpers/routes.

Modelling conventions:
* The SQLite store is a record of three lists (`users`, `books`,
  `links`) plus the auto-increment counters.  Sequelize's
  `findByPk` / `findOne` become `List.find?`; a `where`-clause
  `update` becomes a `List.map` touching the matching rows; a
  row-instance `update` (returnBook) replaces the first matching row.
* `UserBooks` declares the pair (`userId`, `bookId`) as composite
  primary key; in the list model this uniqueness is a proved
  invariant (`pairUnique`) of reachable states, not a type-level fact.
* JavaScript numbers that only ever hold integers are `Nat` (ids) or
  `Int` (scores); `toFixed(2)` is modelled exactly on `ℚ` as
  round-half-away-from-zero to cents followed by decimal rendering,
  producing a `String` just as in JavaScript.
-/

/-- A row of the `User` table (`src/models/User.js`): auto-increment
integer `id`, non-null `name`. -/
structure UserRec where
  id : Nat
  name : String
deriving DecidableEq

/-- A row of the `Book` table (`src/models/Book.js`): implicit
auto-increment `id`, non-null `name`.  The declared `averageRating`
FLOAT column keeps its default 0 and is never read or written anywhere
in the code, so it is omitted from the model. -/
structure BookRec where
  id : Nat
  name : String
deriving DecidableEq

/-- A row of the `UserBooks` join table (`src/models/UserBooks.js`):
composite primary key (`userId`, `bookId`), `userScore` integer
defaulting to 0, `isCurrentlyBorrowed` boolean defaulting to true. -/
structure LoanLink where
  userId : Nat
  bookId : Nat
  userScore : Int
  isCurrentlyBorrowed : Bool
deriving DecidableEq

/-- The persistent store: the three tables plus the auto-increment
counters of the two entity tables. -/
structure DB where
  users : List UserRec
  books : List BookRec
  links : List LoanLink
  nextUserId : Nat
  nextBookId : Nat
deriving DecidableEq

/-- The store produced by `initDB.js` (`sequelize.sync({force:true})`):
all tables empty, auto-increment counters at 1. -/
def emptyDB : DB := ⟨[], [], [], 1, 1⟩

/-- `User.findByPk(userId)`. -/
def findUser (db : DB) (userId : Nat) : Option UserRec :=
  db.users.find? (fun u => u.id == userId)

/-- `Book.findByPk(bookId)`. -/
def findBook (db : DB) (bookId : Nat) : Option BookRec :=
  db.books.find? (fun bk => bk.id == bookId)

/-- The `result` object `{success, message, status}` that `borrowBook`
and `returnBook` build and the routes translate to an HTTP response. -/
structure OpResult where
  success : Bool
  message : String
  status : Nat
deriving DecidableEq

/-- The `findOne({where: {bookId, isCurrentlyBorrowed: true}})`
predicate of `borrowBook`: an open link for this book. -/
def openForBook (bookId : Nat) (l : LoanLink) : Bool :=
  l.bookId == bookId && l.isCurrentlyBorrowed

/-- The `findOne({where: {bookId, userId, isCurrentlyBorrowed: false}})`
predicate of `borrowBook`: a closed link for exactly this pair. -/
def closedPair (userId bookId : Nat) (l : LoanLink) : Bool :=
  l.bookId == bookId && l.userId == userId && l.isCurrentlyBorrowed == false

/-- The per-row effect of
`UserBooks.update({isCurrentlyBorrowed: true, userScore: 0}, {where: {bookId, userId}})`:
rows matching the `where` clause are reopened with the score reset,
every other row is untouched. -/
def reopenOf (userId bookId : Nat) (l : LoanLink) : LoanLink :=
  if l.bookId == bookId && l.userId == userId then
    { l with isCurrentlyBorrowed := true, userScore := 0 }
  else l

/-- `borrowBook(userId, bookId, User, Book, UserBooks)` from
`helpers/booksHelper` (src/unnamed/part_002, lines 272-328).
Checks existence of user and book (404), then any open link for the
book (400 with a message naming this user / someone else), then
either reopens the closed (userId, bookId) row via
`UserBooks.update(..., {where: {bookId, userId}})` or creates a fresh
open row (`userScore` takes its default 0). -/
def borrowBook (userId bookId : Nat) (db : DB) : OpResult × DB :=
  if (findUser db userId).isNone || (findBook db bookId).isNone then
    (⟨false, "User or Book not found", 404⟩, db)
  else
    match db.links.find? (openForBook bookId) with
    | some existingEntry =>
      (⟨false, "Book is already borrowed by" ++
          (if existingEntry.userId == userId then " this user" else " someone else"),
        400⟩, db)
    | none =>
      match db.links.find? (closedPair userId bookId) with
      | some _ =>
        (⟨true, "Book borrowed successfully", 200⟩,
         { db with links := db.links.map (reopenOf userId bookId) })
      | none =>
        (⟨true, "Book borrowed successfully", 200⟩,
         { db with links := db.links ++
             [{ userId := userId, bookId := bookId, userScore := 0, isCurrentlyBorrowed := true }] })

/-- The `findOne({where: {userId, bookId, isCurrentlyBorrowed: true}})`
predicate of `returnBook`: the open link of exactly this pair. -/
def openPair (userId bookId : Nat) (l : LoanLink) : Bool :=
  l.userId == userId && l.bookId == bookId && l.isCurrentlyBorrowed

/-- `userBookEntry.update({isCurrentlyBorrowed: false, userScore: score})`
on the row instance returned by `findOne`: replace the first row
matching (`userId`, `bookId`, open) by its closed, scored version. -/
def closeFirst (userId bookId : Nat) (score : Int) : List LoanLink → List LoanLink
  | [] => []
  | l :: ls =>
    if openPair userId bookId l then
      { l with isCurrentlyBorrowed := false, userScore := score } :: ls
    else
      l :: closeFirst userId bookId score ls

/-- `returnBook(userId, bookId, User, Book, UserBooks, score)` from
`helpers/booksHelper` (src/unnamed/part_002, lines 215-253).
Checks existence of user and book (404), then looks up the open link
for exactly this (userId, bookId) pair; if absent fails 400, otherwise
closes it and stores the score (no validation of the score value). -/
def returnBook (userId bookId : Nat) (score : Int) (db : DB) : OpResult × DB :=
  if (findUser db userId).isNone || (findBook db bookId).isNone then
    (⟨false, "User or Book not found", 404⟩, db)
  else
    match db.links.find? (openPair userId bookId) with
    | none =>
      (⟨false, "This book is not currently borrowed by the user", 400⟩, db)
    | some _ =>
      (⟨true, "Book returned successfully", 200⟩,
       { db with links := closeFirst userId bookId score db.links })

/-- `createUser(User, userName)` from `helpers/usersHelper`
(src/unnamed/part_002, lines 357-363).  The row is persisted, but the
chained `.then(async () => { await User.create(...) })` callback has no
return statement, so the promise the helper hands back resolves to
`undefined` — modelled as `none` — rather than to the created record. -/
def createUser (db : DB) (userName : String) : Option UserRec × DB :=
  (none,
   { db with users := db.users ++ [{ id := db.nextUserId, name := userName }],
             nextUserId := db.nextUserId + 1 })

/-- The book-creation body of `router.post('/')` in the books route
(src/unnamed/part_002, lines 61-73).  The row is persisted, but the
route responds with the still-pending promise `Book.sync().then(...)`
(whose callback also lacks a return), which serializes as an empty
object — modelled as `none` — rather than as the created record. -/
def createBook (db : DB) (bookName : String) : Option BookRec × DB :=
  (none,
   { db with books := db.books ++ [{ id := db.nextBookId, name := bookName }],
             nextBookId := db.nextBookId + 1 })

/-- JavaScript `toFixed` first rounds the exact value to the nearest
multiple of 10⁻², ties away from zero; this gives that integer number
of cents. -/
def round2cents (q : ℚ) : Int :=
  if 0 ≤ q then ⌊q * 100 + 1 / 2⌋ else -⌊-(q * 100) + 1 / 2⌋

/-- The cents of `(t / n).toFixed(2)` computed in integer arithmetic
(so that concrete instances evaluate inside the kernel); the lemma
`avgCents_eq_round2cents` below shows it agrees with the ℚ-level
rounding `round2cents` whenever `0 < n`. -/
def avgCents (t : Int) (n : Nat) : Int :=
  if 0 ≤ t then ((200 * t.natAbs + n) / (2 * n) : Nat)
  else -(((200 * t.natAbs + n) / (2 * n) : Nat) : Int)

/-- Render a number of cents with exactly two decimal digits, e.g.
`400 ↦ "4.00"`, `-5 ↦ "-0.05"`. -/
def centsToString (c : Int) : String :=
  (if c < 0 then "-" else "") ++
    toString (c.natAbs / 100) ++ "." ++
    (if c.natAbs % 100 < 10 then "0" ++ toString (c.natAbs % 100) else toString (c.natAbs % 100))

/-- `x.toFixed(2)` on the exact rational value `x`. -/
def jsToFixed2 (q : ℚ) : String := centsToString (round2cents q)

/-- The JSON value stored in the `score` field of the book-by-id
response: either a JavaScript number or a string (`toFixed` returns a
string). -/
inductive ScoreField
  | num (n : Int)
  | str (s : String)
deriving DecidableEq

/-- The `{id, name, score}` object built by `getBookWithScore`. -/
structure BookWithScore where
  id : Nat
  name : String
  score : ScoreField
deriving DecidableEq

/-- The rows of `book.Users` in `getBookWithScore`: the `UserBooks`
rows for this book joined (through `belongsToMany`) with an existing
user row. -/
def bookJoinedLinks (db : DB) (bookId : Nat) : List LoanLink :=
  db.links.filter (fun l => l.bookId == bookId && db.users.any (fun u => u.id == l.userId))

/-- `getBookWithScore(bookId, Book, User)` from `helpers/booksHelper`
(src/unnamed/part_002, lines 123-162).  Sums `userScore` over every
joined link row (open and closed; the null-check on `userScore` never
fires since the column is non-null).  When the total is nonzero the
score is the string `(total / count).toFixed(2)` (the strict
comparison `averageScore !== 0` is then a string-versus-number
comparison and always true); when the total is zero the score is the
number -1. -/
def getBookWithScore (bookId : Nat) (db : DB) : Option BookWithScore :=
  match findBook db bookId with
  | none => none
  | some book =>
    let rows := bookJoinedLinks db bookId
    let totalScore : Int := (rows.map (fun l => l.userScore)).sum
    if totalScore ≠ 0 then
      some { id := book.id, name := book.name,
             score := ScoreField.str (centsToString (avgCents totalScore rows.length)) }
    else
      some { id := book.id, name := book.name, score := ScoreField.num (-1) }

/-- An element of the `past` list of the user-by-id response. -/
structure PastBook where
  name : String
  userScore : Int
deriving DecidableEq

/-- An element of the `present` list of the user-by-id response. -/
structure PresentBook where
  name : String
deriving DecidableEq

/-- The `{id, name, books: {past, present}}` object built by
`getUserById`. -/
structure UserWithBooks where
  id : Nat
  name : String
  past : List PastBook
  present : List PresentBook
deriving DecidableEq

/-- The rows of `user.Books` in `getUserById`: each `UserBooks` row of
this user joined with its existing book row, yielding
(book name, userScore, isCurrentlyBorrowed). -/
def userJoinedBooks (db : DB) (userId : Nat) : List (String × Int × Bool) :=
  (db.links.filter (fun l => l.userId == userId)).filterMap (fun l =>
    (db.books.find? (fun bk => bk.id == l.bookId)).map (fun bk =>
      (bk.name, l.userScore, l.isCurrentlyBorrowed)))

/-- `getUserById(userId, User, Book)` from `helpers/usersHelper`
(src/unnamed/part_002, lines 375-410).  Returns null for a missing
user; otherwise partitions the joined books in order: open links go to
`present` (name only), closed links go to `past` (name and score). -/
def getUserById (userId : Nat) (db : DB) : Option UserWithBooks :=
  match findUser db userId with
  | none => none
  | some user =>
    let rows := userJoinedBooks db userId
    some { id := user.id, name := user.name,
           past := (rows.filter (fun r => !r.2.2)).map (fun r => { name := r.1, userScore := r.2.1 }),
           present := (rows.filter (fun r => r.2.2)).map (fun r => { name := r.1 }) }

example :
    getBookWithScore 1
      { emptyDB with users := [⟨1, "Alice"⟩], books := [⟨1, "Dune"⟩],
                     links := [⟨1, 1, 4, false⟩] } =
    some ⟨1, "Dune", ScoreField.str "4.00"⟩ := by decide

example :
    getBookWithScore 1
      { emptyDB with users := [⟨1, "Alice"⟩, ⟨2, "Bob"⟩], books := [⟨1, "Dune"⟩],
                     links := [⟨1, 1, 4, false⟩, ⟨2, 1, 0, true⟩] } =
    some ⟨1, "Dune", ScoreField.str "2.00"⟩ := by decide

/-! ## Invariants of reachable stores -/

/-- The number of open loan links for a given book. -/
def countOpen (links : List LoanLink) (bookId : Nat) : Nat :=
  links.countP (openForBook bookId)

/-- The uniqueness guaranteed in the real store by the composite
primary key (`userId`, `bookId`) of `UserBooks`: no two rows share the
pair. -/
def pairUnique (links : List LoanLink) : Prop :=
  links.Pairwise (fun a c => a.userId ≠ c.userId ∨ a.bookId ≠ c.bookId)

/-- Every open link carries the default/sentinel score 0 (`userScore`
defaults to 0 on creation and is reset to 0 on reopening). -/
def openZero (links : List LoanLink) : Prop :=
  ∀ l ∈ links, l.isCurrentlyBorrowed = true → l.userScore = 0

/-- The foreign-key constraints of `UserBooks`: every link references
an existing user and an existing book. -/
def linksValid (db : DB) : Prop :=
  ∀ l ∈ db.links, (∃ u ∈ db.users, u.id = l.userId) ∧ (∃ bk ∈ db.books, bk.id = l.bookId)

/-- The combined invariant of reachable stores. -/
def StoreInv (db : DB) : Prop :=
  pairUnique db.links ∧ (∀ b, countOpen db.links b ≤ 1) ∧ openZero db.links ∧ linksValid db

/-- One sequential API call, as dispatched by the routes. -/
inductive Op
  | createUserOp (name : String)
  | createBookOp (name : String)
  | borrowOp (userId bookId : Nat)
  | returnOp (userId bookId : Nat) (score : Int)

/-- The store after one call (each route runs to completion before the
next is considered; only the resulting store is carried over). -/
def applyOp (db : DB) : Op → DB
  | .createUserOp n => (createUser db n).2
  | .createBookOp n => (createBook db n).2
  | .borrowOp u b => (borrowBook u b db).2
  | .returnOp u b s => (returnBook u b s db).2

/-- The store reached from the freshly-initialised database by a
sequence of sequential calls. -/
def runOps (ops : List Op) : DB :=
  List.foldl applyOp emptyDB ops

/-! ## Pointwise facts about the row transformers -/

theorem reopenOf_userId (u b : Nat) (l : LoanLink) : (reopenOf u b l).userId = l.userId := by
  unfold reopenOf; split <;> rfl

theorem reopenOf_bookId (u b : Nat) (l : LoanLink) : (reopenOf u b l).bookId = l.bookId := by
  unfold reopenOf; split <;> rfl

theorem openForBook_reopenOf_ne (u b b' : Nat) (l : LoanLink) (hne : b' ≠ b) :
    openForBook b' (reopenOf u b l) = openForBook b' l := by
  unfold reopenOf openForBook
  split
  · rename_i hm
    simp only [Bool.and_eq_true, beq_iff_eq] at hm
    have h1 : (l.bookId == b') = false := by
      simp only [beq_eq_false_iff_ne, ne_eq, hm.1]
      exact fun e => hne e.symm
    simp [h1]
  · rfl

theorem openForBook_reopenOf_same (u b : Nat) (l : LoanLink) (h0 : openForBook b l = false) :
    openForBook b (reopenOf u b l) = (l.bookId == b && l.userId == u) := by
  unfold reopenOf openForBook
  split
  · rename_i hm
    simp only [Bool.and_eq_true, beq_iff_eq] at hm
    simp [hm.1, hm.2]
  · rename_i hm
    unfold openForBook at h0
    rw [h0, eq_comm, Bool.eq_false_iff]
    exact hm

theorem mem_closeFirst {u b : Nat} {s : Int} {ls : List LoanLink} {y : LoanLink}
    (h : y ∈ closeFirst u b s ls) :
    ∃ x ∈ ls, y.userId = x.userId ∧ y.bookId = x.bookId ∧
      (y = x ∨ y.isCurrentlyBorrowed = false) := by
  induction ls with
  | nil => simp [closeFirst] at h
  | cons l t ih =>
    unfold closeFirst at h
    split at h
    · rcases List.mem_cons.mp h with rfl | hmem
      · exact ⟨l, List.mem_cons_self _ _, rfl, rfl, Or.inr rfl⟩
      · exact ⟨y, List.mem_cons_of_mem _ hmem, rfl, rfl, Or.inl rfl⟩
    · rcases List.mem_cons.mp h with rfl | hmem
      · exact ⟨y, List.mem_cons_self _ _, rfl, rfl, Or.inl rfl⟩
      · obtain ⟨x, hx, hxu, hxb, hxc⟩ := ih hmem
        exact ⟨x, List.mem_cons_of_mem _ hx, hxu, hxb, hxc⟩

theorem pairUnique_closeFirst (u b : Nat) (s : Int) {ls : List LoanLink}
    (h : pairUnique ls) : pairUnique (closeFirst u b s ls) := by
  induction ls with
  | nil => simpa [closeFirst] using h
  | cons l t ih =>
    rw [pairUnique, List.pairwise_cons] at h
    obtain ⟨h1, h2⟩ := h
    unfold closeFirst
    split
    · exact List.pairwise_cons.mpr ⟨fun y hy => h1 y hy, h2⟩
    · refine List.pairwise_cons.mpr ⟨?_, ih h2⟩
      intro y hy
      obtain ⟨x, hx, hxu, hxb, _⟩ := mem_closeFirst hy
      rcases h1 x hx with hne | hne
      · exact Or.inl (by rw [hxu]; exact hne)
      · exact Or.inr (by rw [hxb]; exact hne)

theorem countOpen_closeFirst_le (u b : Nat) (s : Int) (ls : List LoanLink) (b' : Nat) :
    countOpen (closeFirst u b s ls) b' ≤ countOpen ls b' := by
  induction ls with
  | nil => simp [closeFirst]
  | cons l t ih =>
    unfold closeFirst
    split
    · unfold countOpen
      simp only [List.countP_cons]
      have hcl : openForBook b' { l with isCurrentlyBorrowed := false, userScore := s } = false := by
        simp [openForBook]
      rw [hcl]
      simp only [Bool.false_eq_true, if_false]
      omega
    · unfold countOpen
      simp only [List.countP_cons]
      exact Nat.add_le_add_right ih _

theorem openZero_closeFirst (u b : Nat) (s : Int) {ls : List LoanLink}
    (h : openZero ls) : openZero (closeFirst u b s ls) := by
  intro y hy hopen
  obtain ⟨x, hx, _, _, hcase⟩ := mem_closeFirst hy
  rcases hcase with rfl | hfalse
  · exact h _ hx hopen
  · rw [hfalse] at hopen
    cases hopen

theorem countP_pair_le_one {u b : Nat} {ls : List LoanLink} (h : pairUnique ls) :
    ls.countP (fun l => l.bookId == b && l.userId == u) ≤ 1 := by
  induction ls with
  | nil => simp
  | cons l t ih =>
    rw [pairUnique, List.pairwise_cons] at h
    obtain ⟨h1, h2⟩ := h
    rw [List.countP_cons]
    by_cases hc : (l.bookId == b && l.userId == u) = true
    · have ht : t.countP (fun l => l.bookId == b && l.userId == u) = 0 := by
        rw [List.countP_eq_zero]
        intro a ha hpa
        simp only [Bool.and_eq_true, beq_iff_eq] at hc hpa
        rcases h1 a ha with hne | hne
        · exact hne (by rw [hc.2, hpa.2])
        · exact hne (by rw [hc.1, hpa.1])
      rw [ht, if_pos hc]
    · rw [if_neg hc]
      simpa using ih h2

/-! ## Preservation of the invariant by every operation -/

theorem StoreInv_createUser (db : DB) (n : String) (h : StoreInv db) :
    StoreInv (createUser db n).2 := by
  obtain ⟨hpu, hco, hoz, hlv⟩ := h
  refine ⟨hpu, hco, hoz, ?_⟩
  intro l hl
  obtain ⟨⟨x, hx, hxe⟩, ⟨y, hy, hye⟩⟩ := hlv l hl
  exact ⟨⟨x, List.mem_append_left _ hx, hxe⟩, ⟨y, hy, hye⟩⟩

theorem StoreInv_createBook (db : DB) (n : String) (h : StoreInv db) :
    StoreInv (createBook db n).2 := by
  obtain ⟨hpu, hco, hoz, hlv⟩ := h
  refine ⟨hpu, hco, hoz, ?_⟩
  intro l hl
  obtain ⟨⟨x, hx, hxe⟩, ⟨y, hy, hye⟩⟩ := hlv l hl
  exact ⟨⟨x, hx, hxe⟩, ⟨y, List.mem_append_left _ hy, hye⟩⟩

theorem StoreInv_returnBook (u b : Nat) (s : Int) (db : DB) (h : StoreInv db) :
    StoreInv (returnBook u b s db).2 := by
  obtain ⟨hpu, hco, hoz, hlv⟩ := h
  unfold returnBook
  split
  · exact ⟨hpu, hco, hoz, hlv⟩
  · split
    · exact ⟨hpu, hco, hoz, hlv⟩
    · refine ⟨pairUnique_closeFirst u b s hpu, ?_, openZero_closeFirst u b s hoz, ?_⟩
      · intro b'
        exact le_trans (countOpen_closeFirst_le u b s db.links b') (hco b')
      · intro l hl
        obtain ⟨x, hx, hxu, hxb, _⟩ := mem_closeFirst hl
        obtain ⟨⟨w, hw, hwe⟩, ⟨y, hy, hye⟩⟩ := hlv x hx
        exact ⟨⟨w, hw, by rw [hxu, hwe]⟩, ⟨y, hy, by rw [hxb, hye]⟩⟩

theorem StoreInv_borrowBook (u b : Nat) (db : DB) (h : StoreInv db) :
    StoreInv (borrowBook u b db).2 := by
  obtain ⟨hpu, hco, hoz, hlv⟩ := h
  unfold borrowBook
  split
  · exact ⟨hpu, hco, hoz, hlv⟩
  · rename_i hguard
    split
    · exact ⟨hpu, hco, hoz, hlv⟩
    · rename_i hopen
      have hall : ∀ l ∈ db.links, openForBook b l = false := by
        intro l hl
        exact Bool.eq_false_iff.mpr (List.find?_eq_none.mp hopen l hl)
      split
      · -- update branch: reopen the closed (u, b) row
        refine ⟨?_, ?_, ?_, ?_⟩
        · show pairUnique (db.links.map (reopenOf u b))
          rw [pairUnique, List.pairwise_map]
          exact hpu.imp (fun {a c} hac => by
            rw [reopenOf_userId, reopenOf_userId, reopenOf_bookId, reopenOf_bookId]
            exact hac)
        · intro b'
          show countOpen (db.links.map (reopenOf u b)) b' ≤ 1
          rw [countOpen, List.countP_map]
          by_cases hbb : b' = b
          · subst hbb
            rw [List.countP_congr (q := fun l => l.bookId == b' && l.userId == u)
                (fun x hx => by
                  rw [show (openForBook b' ∘ reopenOf u b') x = openForBook b' (reopenOf u b' x)
                        from rfl,
                      openForBook_reopenOf_same u b' x (hall x hx)])]
            exact countP_pair_le_one hpu
          · rw [List.countP_congr (q := openForBook b')
                (fun x hx => by
                  rw [show (openForBook b' ∘ reopenOf u b) x = openForBook b' (reopenOf u b x)
                        from rfl,
                      openForBook_reopenOf_ne u b b' x hbb])]
            exact hco b'
        · intro y hy hopen'
          obtain ⟨x, hx, hmap⟩ := List.mem_map.mp hy
          by_cases hm : (x.bookId == b && x.userId == u) = true
          · rw [← hmap]
            unfold reopenOf
            rw [if_pos hm]
          · have hid : reopenOf u b x = x := by unfold reopenOf; rw [if_neg hm]
            rw [← hmap, hid] at hopen'
            rw [← hmap, hid]
            exact hoz x hx hopen'
        · intro y hy
          obtain ⟨x, hx, hmap⟩ := List.mem_map.mp hy
          obtain ⟨⟨w, hw, hwe⟩, ⟨z, hz, hze⟩⟩ := hlv x hx
          rw [← hmap]
          exact ⟨⟨w, hw, by rw [reopenOf_userId, hwe]⟩,
                 ⟨z, hz, by rw [reopenOf_bookId, hze]⟩⟩
      · -- create branch: append a fresh open row
        rename_i hclosed
        have hallc : ∀ l ∈ db.links, closedPair u b l = false := by
          intro l hl
          exact Bool.eq_false_iff.mpr (List.find?_eq_none.mp hclosed l hl)
        have hnopair : ∀ l ∈ db.links, ¬(l.userId = u ∧ l.bookId = b) := by
          rintro l hl ⟨e1, e2⟩
          cases hob : l.isCurrentlyBorrowed
          · have hc := hallc l hl
            unfold closedPair at hc
            simp [e1, e2, hob] at hc
          · have hc := hall l hl
            unfold openForBook at hc
            simp [e2, hob] at hc
        refine ⟨?_, ?_, ?_, ?_⟩
        · show pairUnique (db.links ++ [⟨u, b, 0, true⟩])
          rw [pairUnique, List.pairwise_append]
          refine ⟨hpu, List.pairwise_singleton _ _, ?_⟩
          intro a ha c hc
          rw [List.mem_singleton] at hc
          subst hc
          by_contra hcon
          push_neg at hcon
          exact hnopair a ha ⟨hcon.1, hcon.2⟩
        · intro b'
          show countOpen (db.links ++ [⟨u, b, 0, true⟩]) b' ≤ 1
          rw [countOpen, List.countP_append]
          by_cases hbb : b' = b
          · subst hbb
            have hz : List.countP (openForBook b') db.links = 0 :=
              List.countP_eq_zero.mpr (fun a ha => by rw [hall a ha]; simp)
            rw [hz]
            simp [openForBook]
          · have h1 : List.countP (openForBook b') [(⟨u, b, 0, true⟩ : LoanLink)] = 0 := by
              simp only [List.countP_cons, List.countP_nil, openForBook]
              have : ((b : Nat) == b') = false := by
                simp only [beq_eq_false_iff_ne, ne_eq]
                exact fun e => hbb e.symm
              simp [this]
            rw [h1]
            simpa using hco b'
        · intro y hy
          rw [List.mem_append] at hy
          rcases hy with hy | hy
          · exact hoz y hy
          · rw [List.mem_singleton] at hy
            subst hy
            intro
            rfl
        · intro y hy
          rw [List.mem_append] at hy
          rcases hy with hy | hy
          · exact hlv y hy
          · rw [List.mem_singleton] at hy
            subst hy
            cases hfu : findUser db u with
            | none => simp [hfu] at hguard
            | some usr =>
              cases hfb : findBook db b with
              | none => simp [hfb] at hguard
              | some bk =>
                unfold findUser at hfu
                unfold findBook at hfb
                have hu1 := List.find?_some hfu
                have hb1 := List.find?_some hfb
                rw [beq_iff_eq] at hu1 hb1
                exact ⟨⟨usr, List.mem_of_find?_eq_some hfu, hu1⟩,
                       ⟨bk, List.mem_of_find?_eq_some hfb, hb1⟩⟩

theorem StoreInv_applyOp (db : DB) (op : Op) (h : StoreInv db) : StoreInv (applyOp db op) := by
  cases op with
  | createUserOp n => exact StoreInv_createUser db n h
  | createBookOp n => exact StoreInv_createBook db n h
  | borrowOp u b => exact StoreInv_borrowBook u b db h
  | returnOp u b s => exact StoreInv_returnBook u b s db h

theorem StoreInv_emptyDB : StoreInv emptyDB := by
  refine ⟨List.Pairwise.nil, ?_, ?_, ?_⟩
  · intro b
    simp [countOpen, emptyDB]
  · intro l hl
    simp [emptyDB] at hl
  · intro l hl
    simp [emptyDB] at hl

theorem StoreInv_foldl (ops : List Op) :
    ∀ db, StoreInv db → StoreInv (List.foldl applyOp db ops) := by
  induction ops with
  | nil => exact fun db h => h
  | cons op t ih => exact fun db h => ih _ (StoreInv_applyOp db op h)

theorem StoreInv_runOps (ops : List Op) : StoreInv (runOps ops) :=
  StoreInv_foldl ops emptyDB StoreInv_emptyDB

/-- C1: starting from the empty store, after every sequence of
sequential CreateUser/CreateBook/BorrowBook/ReturnBook calls, for
every `bookId` at most one Loan-link row has
`isCurrentlyBorrowed = true`. -/
theorem C1_at_most_one_open_link (ops : List Op) (bookId : Nat) :
    countOpen (runOps ops).links bookId ≤ 1 :=
  (StoreInv_runOps ops).2.1 bookId

/-! ## Decidability of the invariants (used to discharge hypotheses on
concrete stores) -/

instance (links : List LoanLink) : Decidable (pairUnique links) := by
  unfold pairUnique
  infer_instance

instance (links : List LoanLink) : Decidable (openZero links) := by
  unfold openZero
  infer_instance

instance (db : DB) : Decidable (linksValid db) := by
  unfold linksValid
  infer_instance

/-- `find?` returns the one element satisfying a predicate that at most
one element satisfies. -/
theorem find?_eq_of_unique {α : Type _} {p : α → Bool} {ls : List α}
    (hc : ls.countP p ≤ 1) {x : α} (hx : x ∈ ls) (hpx : p x = true) :
    ls.find? p = some x := by
  induction ls with
  | nil => cases hx
  | cons a t ih =>
    rw [List.countP_cons] at hc
    rcases List.mem_cons.mp hx with rfl | hmem
    · exact List.find?_cons_of_pos _ hpx
    · by_cases hpa : p a = true
      · exfalso
        rw [if_pos hpa] at hc
        have ht : t.countP p = 0 := by omega
        exact (List.countP_eq_zero.mp ht x hmem) hpx
      · rw [List.find?_cons_of_neg _ hpa]
        refine ih ?_ hmem
        rw [if_neg hpa] at hc
        omega

/-- C2: when the requesting user and the book both exist,
`borrowBook` fails with Conflict (400) if and only if some Loan-link
row for the book is open, the message distinguishes "this user" from
"someone else" by the open link's `userId`, and both cases are
failures. -/
theorem C2_borrow_conflict_iff (u b : Nat) (db : DB)
    (hu : (findUser db u).isSome = true) (hb : (findBook db b).isSome = true) :
    (((borrowBook u b db).1.success = false ∧ (borrowBook u b db).1.status = 400) ↔
      ∃ l ∈ db.links, openForBook b l = true) ∧
    (countOpen db.links b ≤ 1 →
      ∀ l ∈ db.links, openForBook b l = true →
      (borrowBook u b db).1.success = false ∧
      (borrowBook u b db).1.message =
        "Book is already borrowed by" ++
          (if l.userId = u then " this user" else " someone else")) := by
  obtain ⟨usr, hu'⟩ := Option.isSome_iff_exists.mp hu
  obtain ⟨bk, hb'⟩ := Option.isSome_iff_exists.mp hb
  have hg : ((findUser db u).isNone || (findBook db b).isNone) = false := by
    rw [hu', hb']
    rfl
  cases hf : db.links.find? (openForBook b) with
  | some e =>
    refine ⟨⟨fun _ => ⟨e, List.mem_of_find?_eq_some hf, List.find?_some hf⟩, fun _ => ?_⟩, ?_⟩
    · simp [borrowBook, hg, hf]
    · intro hinv l hl hlp
      have hfl : db.links.find? (openForBook b) = some l := by
        unfold countOpen at hinv
        exact find?_eq_of_unique hinv hl hlp
      rw [hf] at hfl
      injection hfl with hel
      subst hel
      constructor
      · simp [borrowBook, hg, hf]
      · by_cases hue : e.userId = u
        · simp [borrowBook, hg, hf, hue]
        · simp [borrowBook, hg, hf, hue]
  | none =>
    have hno : ∀ l ∈ db.links, ¬(openForBook b l = true) := List.find?_eq_none.mp hf
    have hsucc : (borrowBook u b db).1.success = true := by
      cases hc : db.links.find? (closedPair u b) with
      | some e2 => simp [borrowBook, hg, hf, hc]
      | none => simp [borrowBook, hg, hf, hc]
    refine ⟨⟨fun hfail => ?_, fun hex => ?_⟩, ?_⟩
    · rw [hsucc] at hfail
      cases hfail.1
    · obtain ⟨l, hl, hlp⟩ := hex
      exact absurd hlp (hno l hl)
    · intro _ l hl hlp
      exact absurd hlp (hno l hl)

/-- A store in which user 2 currently holds book 1 and user 1 also
exists: the concrete input of the conflict witness. -/
def dbW2 : DB :=
  { emptyDB with users := [⟨1, "Alice"⟩, ⟨2, "Bob"⟩], books := [⟨1, "Dune"⟩],
                 links := [⟨2, 1, 0, true⟩] }

theorem C2_witness :
    (((borrowBook 1 1 dbW2).1.success = false ∧ (borrowBook 1 1 dbW2).1.status = 400) ↔
      ∃ l ∈ dbW2.links, openForBook 1 l = true) ∧
    (countOpen dbW2.links 1 ≤ 1 →
      ∀ l ∈ dbW2.links, openForBook 1 l = true →
      (borrowBook 1 1 dbW2).1.success = false ∧
      (borrowBook 1 1 dbW2).1.message =
        "Book is already borrowed by" ++
          (if l.userId = 1 then " this user" else " someone else")) :=
  C2_borrow_conflict_iff 1 1 dbW2 (by decide) (by decide)

/-- C10: every failing `borrowBook` call — missing user or book, or
conflicting open link — leaves the entire store (in particular the
Loan-link table) exactly as it was. -/
theorem C10_failing_borrow_frame (u b : Nat) (db : DB)
    (h : (borrowBook u b db).1.success = false) :
    (borrowBook u b db).2 = db := by
  by_cases hg : ((findUser db u).isNone || (findBook db b).isNone) = true
  · simp [borrowBook, hg]
  · rw [Bool.not_eq_true] at hg
    cases hf : db.links.find? (openForBook b) with
    | some e => simp [borrowBook, hg, hf]
    | none =>
      cases hc : db.links.find? (closedPair u b) with
      | some e =>
        rw [borrowBook] at h
        simp [hg, hf, hc] at h
      | none =>
        rw [borrowBook] at h
        simp [hg, hf, hc] at h

theorem C10_witness :
    (borrowBook 1 1 emptyDB).1.success = false ∧ (borrowBook 1 1 emptyDB).2 = emptyDB :=
  ⟨by decide, C10_failing_borrow_frame 1 1 emptyDB (by decide)⟩

/-- C3: when the user and book exist and no Loan-link row for the book
is open, `borrowBook` succeeds; a closed row for the exact pair is
reopened (`isCurrentlyBorrowed = true`, `userScore = 0`) without
creating a row, otherwise exactly one new open row for the pair is
appended; a duplicate row for the pair is never created. -/
theorem C3_borrow_reuse_or_create (u b : Nat) (db : DB)
    (hu : (findUser db u).isSome = true) (hb : (findBook db b).isSome = true)
    (hopen : ∀ l ∈ db.links, openForBook b l = false)
    (hpu : pairUnique db.links) :
    (borrowBook u b db).1.success = true ∧
    ((∃ l ∈ db.links, l.userId = u ∧ l.bookId = b) →
      (borrowBook u b db).2.links.length = db.links.length ∧
      (∀ l ∈ (borrowBook u b db).2.links, l.userId = u → l.bookId = b →
        l.isCurrentlyBorrowed = true ∧ l.userScore = 0) ∧
      (∀ l ∈ db.links, ¬(l.userId = u ∧ l.bookId = b) → l ∈ (borrowBook u b db).2.links)) ∧
    ((∀ l ∈ db.links, ¬(l.userId = u ∧ l.bookId = b)) →
      (borrowBook u b db).2.links = db.links ++ [⟨u, b, 0, true⟩]) ∧
    (borrowBook u b db).2.links.countP (fun l => l.bookId == b && l.userId == u) ≤ 1 := by
  obtain ⟨usr, hu'⟩ := Option.isSome_iff_exists.mp hu
  obtain ⟨bk, hb'⟩ := Option.isSome_iff_exists.mp hb
  have hg : ((findUser db u).isNone || (findBook db b).isNone) = false := by
    rw [hu', hb']
    rfl
  have hf : db.links.find? (openForBook b) = none :=
    List.find?_eq_none.mpr (fun l hl => by simp [hopen l hl])
  have hpt : ∀ x : LoanLink,
      ((fun l : LoanLink => l.bookId == b && l.userId == u) ∘ reopenOf u b) x =
        (x.bookId == b && x.userId == u) := by
    intro x
    show ((reopenOf u b x).bookId == b && (reopenOf u b x).userId == u) = _
    rw [reopenOf_bookId, reopenOf_userId]
  cases hc : db.links.find? (closedPair u b) with
  | some e =>
    have hlinks : (borrowBook u b db).2.links = db.links.map (reopenOf u b) := by
      simp [borrowBook, hg, hf, hc]
    refine ⟨by simp [borrowBook, hg, hf, hc], ?_, ?_, ?_⟩
    · intro _
      refine ⟨by rw [hlinks, List.length_map], ?_, ?_⟩
      · intro l hl h1 h2
        rw [hlinks] at hl
        obtain ⟨x, hx, hmap⟩ := List.mem_map.mp hl
        by_cases hm : (x.bookId == b && x.userId == u) = true
        · rw [← hmap]
          unfold reopenOf
          rw [if_pos hm]
          exact ⟨rfl, rfl⟩
        · exfalso
          have hid : reopenOf u b x = x := by unfold reopenOf; rw [if_neg hm]
          rw [hid] at hmap
          subst hmap
          apply hm
          simp [h1, h2]
      · intro l hl hnot
        rw [hlinks]
        refine List.mem_map.mpr ⟨l, hl, ?_⟩
        unfold reopenOf
        rw [if_neg]
        intro hm
        simp only [Bool.and_eq_true, beq_iff_eq] at hm
        exact hnot ⟨hm.2, hm.1⟩
    · intro hnone
      exfalso
      have hce := List.mem_of_find?_eq_some hc
      have hcp := List.find?_some hc
      simp only [closedPair, Bool.and_eq_true, beq_iff_eq] at hcp
      exact hnone e hce ⟨hcp.1.2, hcp.1.1⟩
    · rw [hlinks, List.countP_map,
        List.countP_congr (q := fun l : LoanLink => l.bookId == b && l.userId == u)
          (fun x hx => by rw [hpt x])]
      exact countP_pair_le_one hpu
  | none =>
    have hnp : ∀ l ∈ db.links, ¬(l.userId = u ∧ l.bookId = b) := by
      rintro l hl ⟨e1, e2⟩
      cases hob : l.isCurrentlyBorrowed
      · apply List.find?_eq_none.mp hc l hl
        simp [closedPair, e1, e2, hob]
      · have hop := hopen l hl
        simp [openForBook, e2, hob] at hop
    have hlinks : (borrowBook u b db).2.links = db.links ++ [⟨u, b, 0, true⟩] := by
      simp [borrowBook, hg, hf, hc]
    refine ⟨by simp [borrowBook, hg, hf, hc], ?_, fun _ => hlinks, ?_⟩
    · rintro ⟨l, hl, hper⟩
      exact absurd hper (hnp l hl)
    · rw [hlinks, List.countP_append]
      have h0 : db.links.countP (fun l : LoanLink => l.bookId == b && l.userId == u) = 0 := by
        rw [List.countP_eq_zero]
        intro a ha hpa
        simp only [Bool.and_eq_true, beq_iff_eq] at hpa
        exact hnp a ha ⟨hpa.2, hpa.1⟩
      rw [h0]
      simp [List.countP_cons]

/-- The store with one closed loan of book 1 by user 1: the concrete
input of the reuse witness. -/
def dbW3 : DB :=
  { emptyDB with users := [⟨1, "Alice"⟩], books := [⟨1, "Dune"⟩],
                 links := [⟨1, 1, 4, false⟩] }

theorem C3_witness :
    (borrowBook 1 1 dbW3).1.success = true ∧
    (borrowBook 1 1 dbW3).2.links = [⟨1, 1, 0, true⟩] :=
  ⟨(C3_borrow_reuse_or_create 1 1 dbW3 (by decide) (by decide) (by decide) (by decide)).1,
   by decide⟩

/-- Exactly one write to the Loan-link store: either one row is
appended, or one existing row is replaced by a genuinely different
value with everything else untouched. -/
def oneWrite (old new : List LoanLink) : Prop :=
  (∃ r, new = old ++ [r]) ∨
  (∃ i r, i < old.length ∧ old.get? i ≠ some r ∧ new = old.set i r)

/-- On a pair-unique store with no open link for the book, the
`UserBooks.update` of the reuse branch rewrites exactly one row. -/
theorem map_reopenOf_eq_set (u b : Nat) :
    ∀ {ls : List LoanLink}, pairUnique ls → (∀ l ∈ ls, openForBook b l = false) →
      ∀ {e : LoanLink}, ls.find? (closedPair u b) = some e →
      ∃ i r, i < ls.length ∧ ls.get? i ≠ some r ∧ ls.map (reopenOf u b) = ls.set i r := by
  intro ls
  induction ls with
  | nil =>
    intro _ _ e he
    simp at he
  | cons a t ih =>
    intro hpu hallopen e he
    by_cases hpa : closedPair u b a = true
    · have hpa' := hpa
      simp only [closedPair, Bool.and_eq_true] at hpa'
      have hmatch : (a.bookId == b && a.userId == u) = true := by
        rw [Bool.and_eq_true]
        exact ⟨hpa'.1.1, hpa'.1.2⟩
      have hclosed : a.isCurrentlyBorrowed = false := by
        simp only [closedPair, Bool.and_eq_true, beq_iff_eq] at hpa
        exact hpa.2
      have hmatch' : a.bookId = b ∧ a.userId = u := by
        simp only [Bool.and_eq_true, beq_iff_eq] at hmatch
        exact hmatch
      have htid : ∀ y ∈ t, reopenOf u b y = y := by
        intro y hy
        have hrel := (List.pairwise_cons.mp hpu).1 y hy
        unfold reopenOf
        rw [if_neg]
        intro hcm
        simp only [Bool.and_eq_true, beq_iff_eq] at hcm
        rcases hrel with hne | hne
        · exact hne (by rw [hmatch'.2, hcm.2])
        · exact hne (by rw [hmatch'.1, hcm.1])
      refine ⟨0, reopenOf u b a, by simp, ?_, ?_⟩
      · rw [List.get?_cons_zero]
        intro hcon
        injection hcon with hcon
        have hopened : (reopenOf u b a).isCurrentlyBorrowed = true := by
          unfold reopenOf
          rw [if_pos hmatch]
        rw [← hcon, hclosed] at hopened
        cases hopened
      · rw [List.map_cons]
        show reopenOf u b a :: t.map (reopenOf u b) = reopenOf u b a :: t
        congr 1
        calc t.map (reopenOf u b) = t.map id := List.map_congr_left (fun y hy => htid y hy)
          _ = t := List.map_id t
    · have hfa : reopenOf u b a = a := by
        unfold reopenOf
        rw [if_neg]
        intro hcm
        cases hob : a.isCurrentlyBorrowed
        · apply hpa
          simp only [Bool.and_eq_true] at hcm
          simp [closedPair, hcm.1, hcm.2, hob]
        · have hop := hallopen a (List.mem_cons_self a t)
          simp only [openForBook, hob, Bool.and_true] at hop
          simp only [Bool.and_eq_true] at hcm
          rw [hcm.1] at hop
          cases hop
      rw [List.find?_cons_of_neg _ hpa] at he
      have hallt : ∀ l ∈ t, openForBook b l = false :=
        fun l hl => hallopen l (List.mem_cons_of_mem a hl)
      obtain ⟨i, r, hi, hne, hset⟩ := ih (List.pairwise_cons.mp hpu).2 hallt he
      refine ⟨i + 1, r, by simpa using hi, ?_, ?_⟩
      · rw [List.get?_cons_succ]
        exact hne
      · rw [List.map_cons, hfa, hset]
        rfl

/-- C4 counterexample: `borrowBook(1, 1)` on the empty store fails and
performs zero writes to the Loan-link store, refuting "every
BorrowBook call performs exactly one write". -/
theorem C4_counterexample :
    (borrowBook 1 1 emptyDB).1.success = false ∧
    ¬ oneWrite emptyDB.links (borrowBook 1 1 emptyDB).2.links := by
  refine ⟨by decide, ?_⟩
  have h2 : (borrowBook 1 1 emptyDB).2.links = [] := by decide
  rw [h2]
  rintro (⟨r, hr⟩ | ⟨i, r, hi, hne, hset⟩)
  · exact absurd hr (by simp [emptyDB])
  · simp [emptyDB] at hi

/-- C4 amended: every *successful* `borrowBook` call on a pair-unique
store performs exactly one write to the Loan-link store (one row
created or one row updated), and every call leaves the User and Book
tables unchanged. -/
theorem C4_success_one_write (u b : Nat) (db : DB) (hpu : pairUnique db.links) :
    ((borrowBook u b db).1.success = true → oneWrite db.links (borrowBook u b db).2.links) ∧
    (borrowBook u b db).2.users = db.users ∧
    (borrowBook u b db).2.books = db.books := by
  by_cases hg : ((findUser db u).isNone || (findBook db b).isNone) = true
  · refine ⟨?_, by simp [borrowBook, hg], by simp [borrowBook, hg]⟩
    intro hs
    rw [borrowBook] at hs
    simp [hg] at hs
  · rw [Bool.not_eq_true] at hg
    cases hf : db.links.find? (openForBook b) with
    | some e =>
      refine ⟨?_, by simp [borrowBook, hg, hf], by simp [borrowBook, hg, hf]⟩
      intro hs
      rw [borrowBook] at hs
      simp [hg, hf] at hs
    | none =>
      have hallopen : ∀ l ∈ db.links, openForBook b l = false :=
        fun l hl => Bool.eq_false_iff.mpr (List.find?_eq_none.mp hf l hl)
      cases hc : db.links.find? (closedPair u b) with
      | some e =>
        refine ⟨?_, by simp [borrowBook, hg, hf, hc], by simp [borrowBook, hg, hf, hc]⟩
        intro _
        have hlinks : (borrowBook u b db).2.links = db.links.map (reopenOf u b) := by
          simp [borrowBook, hg, hf, hc]
        rw [hlinks]
        exact Or.inr (map_reopenOf_eq_set u b hpu hallopen hc)
      | none =>
        refine ⟨?_, by simp [borrowBook, hg, hf, hc], by simp [borrowBook, hg, hf, hc]⟩
        intro _
        have hlinks : (borrowBook u b db).2.links = db.links ++ [⟨u, b, 0, true⟩] := by
          simp [borrowBook, hg, hf, hc]
        rw [hlinks]
        exact Or.inl ⟨_, rfl⟩

theorem C4_witness :
    ((borrowBook 1 1 dbW3).1.success = true →
      oneWrite dbW3.links (borrowBook 1 1 dbW3).2.links) ∧
    (borrowBook 1 1 dbW3).2.users = dbW3.users ∧
    (borrowBook 1 1 dbW3).2.books = dbW3.books :=
  C4_success_one_write 1 1 dbW3 (by decide)

/-- `closeFirst` replaces exactly the first open row of the pair. -/
theorem closeFirst_eq_set (u b : Nat) (s : Int) :
    ∀ {ls : List LoanLink} {e : LoanLink}, ls.find? (openPair u b) = some e →
      ∃ i x, ls.get? i = some x ∧ openPair u b x = true ∧
        closeFirst u b s ls = ls.set i { x with isCurrentlyBorrowed := false, userScore := s } := by
  intro ls
  induction ls with
  | nil =>
    intro e he
    simp at he
  | cons a t ih =>
    intro e he
    by_cases hpa : openPair u b a = true
    · refine ⟨0, a, List.get?_cons_zero, hpa, ?_⟩
      unfold closeFirst
      rw [if_pos hpa]
      rfl
    · rw [List.find?_cons_of_neg _ hpa] at he
      obtain ⟨i, x, hget, hx, hset⟩ := ih he
      refine ⟨i + 1, x, by rw [List.get?_cons_succ]; exact hget, hx, ?_⟩
      unfold closeFirst
      rw [if_neg hpa, hset]
      rfl

/-- C5: when user and book exist, `returnBook` fails with InvalidState
(400) if and only if no Loan-link row for the exact pair is open —
even if the book is open for a different user — the store is unchanged
on failure, and on success exactly that row is closed with
`userScore = score`, any integer score being accepted. -/
theorem C5_return_semantics (u b : Nat) (s : Int) (db : DB)
    (hu : (findUser db u).isSome = true) (hb : (findBook db b).isSome = true) :
    (((returnBook u b s db).1.success = false ∧ (returnBook u b s db).1.status = 400) ↔
      ∀ l ∈ db.links, ¬(l.userId = u ∧ l.bookId = b ∧ l.isCurrentlyBorrowed = true)) ∧
    ((returnBook u b s db).1.success = false → (returnBook u b s db).2 = db) ∧
    ((returnBook u b s db).1.success = true →
      ∃ i x, db.links.get? i = some x ∧ x.userId = u ∧ x.bookId = b ∧
        x.isCurrentlyBorrowed = true ∧
        (returnBook u b s db).2.links =
          db.links.set i { x with isCurrentlyBorrowed := false, userScore := s }) := by
  obtain ⟨usr, hu'⟩ := Option.isSome_iff_exists.mp hu
  obtain ⟨bk, hb'⟩ := Option.isSome_iff_exists.mp hb
  have hg : ((findUser db u).isNone || (findBook db b).isNone) = false := by
    rw [hu', hb']
    rfl
  cases hf : db.links.find? (openPair u b) with
  | none =>
    have hno := List.find?_eq_none.mp hf
    refine ⟨⟨fun _ => ?_, fun _ => ?_⟩, fun _ => ?_, fun hs => ?_⟩
    · rintro l hl ⟨e1, e2, e3⟩
      apply hno l hl
      simp [openPair, e1, e2, e3]
    · simp [returnBook, hg, hf]
    · simp [returnBook, hg, hf]
    · rw [returnBook] at hs
      simp [hg, hf] at hs
  | some e =>
    have hsucc : (returnBook u b s db).1.success = true := by simp [returnBook, hg, hf]
    have hep := List.find?_some hf
    have hem := List.mem_of_find?_eq_some hf
    refine ⟨⟨fun hfail => ?_, fun hall => ?_⟩, fun hfail => ?_, fun _ => ?_⟩
    · rw [hsucc] at hfail
      cases hfail.1
    · exfalso
      apply hall e hem
      simp only [openPair, Bool.and_eq_true, beq_iff_eq] at hep
      exact ⟨hep.1.1, hep.1.2, hep.2⟩
    · rw [hsucc] at hfail
      cases hfail
    · obtain ⟨i, x, hget, hx, hset⟩ := closeFirst_eq_set u b s hf
      simp only [openPair, Bool.and_eq_true, beq_iff_eq] at hx
      refine ⟨i, x, hget, hx.1.1, hx.1.2, hx.2, ?_⟩
      rw [show (returnBook u b s db).2.links = closeFirst u b s db.links from
            by simp [returnBook, hg, hf]]
      exact hset

theorem C5_witness :
    ((returnBook 1 1 7 dbW2).1.success = false ∧ (returnBook 1 1 7 dbW2).1.status = 400) ∧
    (returnBook 1 1 7 dbW2).2 = dbW2 :=
  ⟨(C5_return_semantics 1 1 7 dbW2 (by decide) (by decide)).1.mpr (by decide),
   (C5_return_semantics 1 1 7 dbW2 (by decide) (by decide)).2.1 (by decide)⟩

/-- Modelled from the spec (§4, GetBookWithAverageScore): the sum of
`userScore` over all associated Loan-link rows of the book, counting
each open row's score as 0. -/
def specBookTotal (db : DB) (bookId : Nat) : Int :=
  ((db.links.filter (fun l => l.bookId == bookId)).map
    (fun l => if l.isCurrentlyBorrowed then 0 else l.userScore)).sum

/-- Modelled from the spec: the number of associated Loan-link rows of
the book (open and closed). -/
def specBookRowCount (db : DB) (bookId : Nat) : Nat :=
  (db.links.filter (fun l => l.bookId == bookId)).length

/-- Modelled from the spec: the sentinel −1 exactly when the total is
0, otherwise the total divided by the row count, rounded to two
decimal places (a `toFixed(2)` string). -/
def specBookScore (db : DB) (bookId : Nat) : ScoreField :=
  if specBookTotal db bookId = 0 then ScoreField.num (-1)
  else ScoreField.str (jsToFixed2
    ((specBookTotal db bookId : ℚ) / (specBookRowCount db bookId : ℚ)))

/-- The integer-arithmetic cents agree with the exact ℚ-level
`toFixed(2)` rounding whenever the row count is positive. -/
theorem avgCents_eq_round2cents (t : Int) (n : Nat) (hn : 0 < n) :
    avgCents t n = round2cents ((t : ℚ) / (n : ℚ)) := by
  have hnq : ((n : ℚ)) ≠ 0 := ne_of_gt (by exact_mod_cast hn)
  by_cases ht : 0 ≤ t
  · have hq : (0 : ℚ) ≤ (t : ℚ) / (n : ℚ) :=
      div_nonneg (by exact_mod_cast ht) (by positivity)
    rw [avgCents, round2cents, if_pos ht, if_pos hq]
    have harith : (t : ℚ) / (n : ℚ) * 100 + 1 / 2
        = (((200 * t.natAbs + n : ℕ) : ℤ) : ℚ) / ((2 * n : ℕ) : ℚ) := by
      push_cast
      rw [abs_of_nonneg (show (0 : ℚ) ≤ (t : ℚ) by exact_mod_cast ht)]
      field_simp
      ring
    rw [harith, Rat.floor_intCast_div_natCast]
    norm_cast
  · push_neg at ht
    have hq : (t : ℚ) / (n : ℚ) < 0 :=
      div_neg_of_neg_of_pos (by exact_mod_cast ht) (by positivity)
    rw [avgCents, round2cents, if_neg (not_le.mpr ht), if_neg (not_le.mpr hq)]
    congr 1
    have harith : -((t : ℚ) / (n : ℚ) * 100) + 1 / 2
        = (((200 * t.natAbs + n : ℕ) : ℤ) : ℚ) / ((2 * n : ℕ) : ℚ) := by
      push_cast
      rw [abs_of_neg (show (t : ℚ) < 0 by exact_mod_cast ht)]
      field_simp
      ring
    rw [harith, Rat.floor_intCast_div_natCast]
    norm_cast

/-- C6: for every existing book (in a store satisfying the
foreign-key and open-score invariants of reachable states), the
reported score is the sentinel −1 exactly when the sum of `userScore`
over all associated rows — open rows counting as 0 — is zero, and is
otherwise that sum divided by the number of associated rows, rounded
to two decimal places. -/
theorem C6_average_score (b : Nat) (db : DB) (bk : BookRec)
    (hb : findBook db b = some bk)
    (hv : ∀ l ∈ db.links, ∃ x ∈ db.users, x.id = l.userId)
    (hz : openZero db.links) :
    getBookWithScore b db = some ⟨bk.id, bk.name, specBookScore db b⟩ := by
  have hjoin : bookJoinedLinks db b = db.links.filter (fun l => l.bookId == b) := by
    unfold bookJoinedLinks
    apply List.filter_congr
    intro x hx
    obtain ⟨w, hw, hwe⟩ := hv x hx
    have hany : db.users.any (fun y => y.id == x.userId) = true :=
      List.any_eq_true.mpr ⟨w, hw, by simp [hwe]⟩
    rw [hany, Bool.and_true]
  have hsum : ((db.links.filter (fun l => l.bookId == b)).map (fun l => l.userScore)).sum
      = specBookTotal db b := by
    unfold specBookTotal
    congr 1
    apply List.map_congr_left
    intro x hx
    have hxl : x ∈ db.links := (List.mem_filter.mp hx).1
    cases hob : x.isCurrentlyBorrowed
    · simp [hob]
    · simp [hob, hz x hxl hob]
  simp only [getBookWithScore, hb, hjoin]
  rw [hsum]
  unfold specBookScore
  by_cases h0 : specBookTotal db b = 0
  · rw [if_neg (by simp [h0]), if_pos h0]
  · rw [if_pos h0, if_neg h0]
    have hlen : 0 < (db.links.filter (fun l => l.bookId == b)).length := by
      by_contra hc
      push_neg at hc
      have hnil : db.links.filter (fun l => l.bookId == b) = [] :=
        List.eq_nil_of_length_eq_zero (Nat.le_zero.mp hc)
      apply h0
      unfold specBookTotal
      rw [hnil]
      rfl
    unfold specBookRowCount
    rw [jsToFixed2, avgCents_eq_round2cents _ _ hlen]

theorem C6_witness :
    getBookWithScore 1 dbW3 =
      some ⟨(⟨1, "Dune"⟩ : BookRec).id, (⟨1, "Dune"⟩ : BookRec).name, specBookScore dbW3 1⟩ :=
  C6_average_score 1 dbW3 ⟨1, "Dune"⟩ (by decide) (by decide) (by decide)

/-- C7 counterexample: with one closed loan scored 4, the book-by-id
lookup reports the score as the string "4.00" (the value of
`toFixed(2)`), not as a number, refuting "score is a number or the
number −1". -/
theorem C7_counterexample :
    getBookWithScore 1 dbW3 = some ⟨1, "Dune", ScoreField.str "4.00"⟩ ∧
    ∀ n : Int, ScoreField.str "4.00" ≠ ScoreField.num n := by
  refine ⟨by decide, ?_⟩
  intro n h
  cases h

/-- C7 amended: for every existing book, the success result of the
book-by-id lookup is an object `{id, name, score}` whose score field
is either the number −1 or a two-decimal string. -/
theorem C7_score_shape (b : Nat) (db : DB) (r : BookWithScore)
    (h : getBookWithScore b db = some r) :
    r.score = ScoreField.num (-1) ∨ ∃ s : String, r.score = ScoreField.str s := by
  unfold getBookWithScore at h
  cases hb : findBook db b with
  | none =>
    rw [hb] at h
    cases h
  | some bk =>
    rw [hb] at h
    simp only at h
    split at h
    · injection h with h
      subst h
      exact Or.inr ⟨_, rfl⟩
    · injection h with h
      subst h
      exact Or.inl rfl

theorem C7_witness :
    ScoreField.str "4.00" = ScoreField.num (-1) ∨
      ∃ s : String, ScoreField.str "4.00" = ScoreField.str s :=
  C7_score_shape 1 dbW3 ⟨1, "Dune", ScoreField.str "4.00"⟩ (by decide)

/-- C8: the user-by-id lookup fails (null, mapped to 404 NotFound)
exactly when no user with that id exists; otherwise every open link of
the user puts the book's name in the `present` list and every closed
link puts the book's name and stored score in the `past` list. -/
theorem C8_user_partition (u : Nat) (db : DB) :
    (getUserById u db = none ↔ findUser db u = none) ∧
    (∀ usr, findUser db u = some usr →
      ∃ r, getUserById u db = some r ∧ r.id = usr.id ∧ r.name = usr.name ∧
        (∀ l ∈ db.links, l.userId = u →
          ∀ bk, db.books.find? (fun x => x.id == l.bookId) = some bk →
            (l.isCurrentlyBorrowed = true → (⟨bk.name⟩ : PresentBook) ∈ r.present) ∧
            (l.isCurrentlyBorrowed = false →
              (⟨bk.name, l.userScore⟩ : PastBook) ∈ r.past))) := by
  constructor
  · cases hf : findUser db u with
    | none => simp [getUserById, hf]
    | some usr => simp [getUserById, hf]
  · intro usr hf
    refine ⟨{ id := usr.id, name := usr.name,
              past := ((userJoinedBooks db u).filter (fun x => !x.2.2)).map
                (fun x => { name := x.1, userScore := x.2.1 }),
              present := ((userJoinedBooks db u).filter (fun x => x.2.2)).map
                (fun x => { name := x.1 }) },
            ?_, rfl, rfl, ?_⟩
    · unfold getUserById
      rw [hf]
    · intro l hl hlu bk hbk
      have hrow : (bk.name, l.userScore, l.isCurrentlyBorrowed) ∈ userJoinedBooks db u := by
        unfold userJoinedBooks
        apply List.mem_filterMap.mpr
        refine ⟨l, List.mem_filter.mpr ⟨hl, by simp [hlu]⟩, ?_⟩
        rw [hbk]
        rfl
      constructor
      · intro hob
        apply List.mem_map.mpr
        refine ⟨(bk.name, l.userScore, l.isCurrentlyBorrowed), ?_, rfl⟩
        exact List.mem_filter.mpr ⟨hrow, by rw [hob]⟩
      · intro hob
        apply List.mem_map.mpr
        refine ⟨(bk.name, l.userScore, l.isCurrentlyBorrowed), ?_, rfl⟩
        exact List.mem_filter.mpr ⟨hrow, by simp [hob]⟩

/-- The store with user Alice holding book Emma and having returned
book Dune with score 5: the concrete input of the partition witness. -/
def dbW8 : DB :=
  { emptyDB with users := [⟨1, "Alice"⟩], books := [⟨1, "Dune"⟩, ⟨2, "Emma"⟩],
                 links := [⟨1, 1, 5, false⟩, ⟨1, 2, 0, true⟩] }

theorem C8_witness :
    ∃ r, getUserById 1 dbW8 = some r ∧ r.id = 1 ∧ r.name = "Alice" ∧
      (⟨"Dune", 5⟩ : PastBook) ∈ r.past ∧ (⟨"Emma"⟩ : PresentBook) ∈ r.present := by
  obtain ⟨r, hr, hid, hname, hpart⟩ := (C8_user_partition 1 dbW8).2 ⟨1, "Alice"⟩ (by decide)
  refine ⟨r, hr, by rw [hid], by rw [hname], ?_, ?_⟩
  · exact (hpart ⟨1, 1, 5, false⟩ (by decide) rfl ⟨1, "Dune"⟩ (by decide)).2 rfl
  · exact (hpart ⟨1, 2, 0, true⟩ (by decide) rfl ⟨2, "Emma"⟩ (by decide)).1 rfl

/-- C9 (code bug): the create operations persist the record — the
store gains the row with its assigned id — but do not hand it back:
`createUser`'s promise resolves to `undefined` and the books route
serializes a pending promise, while their own documentation and the
spec promise the created record. -/
theorem C9_create_returns_undefined :
    (createUser emptyDB "Alice").1 = none ∧
    (createUser emptyDB "Alice").2.users = [{ id := 1, name := "Alice" }] ∧
    (createBook emptyDB "Dune").1 = none ∧
    (createBook emptyDB "Dune").2.books = [{ id := 1, name := "Dune" }] := by
  refine ⟨rfl, by decide, rfl, by decide⟩
